import Mathlib

/-!
Shallow embedding of the playerzero game server (src/server.js together with
the database layer in src/services/database.js).  The in-memory session state,
the player-action resolver, the round timer tick, host failover, join/exit
handling and the persisted record are translated here as executable Lean
definitions; the theorems below establish properties of them.

Modelling conventions:
- JS numbers that only ever hold integers are `Int` (token balances, timer
  fields, market change values) or `Nat` (asset quantities, prices, counters).
- `Math.floor(price * 0.8)` on an integer `price` is modelled as
  `(4 * price) / 5` with natural division.
- `Math.random()` is modelled as an explicit rational input `r` with
  `0 ≤ r < 1`; `Math.floor(r * 40) - 20` becomes `randomChange r`.
- JS object mutation through a reference obtained with `players.find(...)`
  is modelled by `updateFirst`, which rewrites the first matching list entry.
- The JS `Set` of exited players is a list with member-checked insertion.
-/

namespace PlayerZero

inductive Resource
  | gold
  | water
  | oil
deriving DecidableEq, Repr

/-- The `assets` record of a player: `{ gold, water, oil }`. -/
structure Assets where
  gold : Nat
  water : Nat
  oil : Nat
deriving DecidableEq, Repr

def Assets.get (a : Assets) : Resource → Nat
  | Resource.gold => a.gold
  | Resource.water => a.water
  | Resource.oil => a.oil

def Assets.set (a : Assets) : Resource → Nat → Assets
  | Resource.gold, v => { a with gold := v }
  | Resource.water, v => { a with water := v }
  | Resource.oil, v => { a with oil := v }

/-- Mirrors `player.assets.gold + player.assets.water + player.assets.oil`. -/
def sumAssets (a : Assets) : Nat := a.gold + a.water + a.oil

/-- Player record from `createPlayer` in src/server.js (the `socketId`
connection handle is irrelevant to the verified properties and omitted). -/
structure Player where
  id : String
  name : String
  walletAddress : Option String
  tokens : Int
  assets : Assets
  totalAssets : Nat
  connected : Bool
deriving DecidableEq, Repr

/-- Mirrors `createPlayer(playerId, playerName, socketId, walletAddress)`. -/
def createPlayer (playerId playerName : String) (walletAddress : Option String) : Player :=
  { id := playerId
    name := playerName
    walletAddress := walletAddress
    tokens := 1000
    assets := { gold := 0, water := 0, oil := 0 }
    totalAssets := 0
    connected := true }

structure MarketPrices where
  gold : Nat
  water : Nat
  oil : Nat
deriving DecidableEq, Repr

def MarketPrices.get (m : MarketPrices) : Resource → Nat
  | Resource.gold => m.gold
  | Resource.water => m.water
  | Resource.oil => m.oil

/-- One entry of `game.marketChanges`. -/
structure MarketChange where
  resource : Resource
  change : Int
  percentage : String
deriving DecidableEq, Repr

/-- Mirrors the template string `(change > 0 ? "+" : "") + change + "%"`. -/
def pctString (c : Int) : String :=
  (if c > 0 then "+" else "") ++ toString c ++ "%"

inductive GameStatus
  | waiting
  | playing
  | finished
  | closed
deriving DecidableEq, Repr

/-- The `game.roundDelay` object created at a round boundary. -/
structure RoundDelay where
  active : Bool
  timeRemaining : Int
deriving DecidableEq, Repr

/-- The `game.timeRemaining` object `{ hours, minutes, seconds }`. -/
structure TimeRemaining where
  hours : Int
  minutes : Int
  seconds : Int
deriving DecidableEq, Repr

/-- A player together with the `finalScore` attached by `finishGame`. -/
structure ScoredPlayer where
  player : Player
  finalScore : Int
deriving DecidableEq, Repr

/-- In-memory session state as held in `activeGameStates` (src/server.js).
`actionHistory` maps round numbers to archived action lists, modelled as an
association list. -/
structure Game where
  currentRound : Nat
  maxRounds : Nat
  timeRemaining : TimeRemaining
  players : List Player
  marketChanges : List MarketChange
  marketPrices : MarketPrices
  recentActions : List String
  actionHistory : List (Nat × List String)
  status : GameStatus
  host : Option String
  timerActive : Bool
  roundDelay : Option RoundDelay
  exitedPlayers : List String
  winner : Option ScoredPlayer
  finalScores : List ScoredPlayer
deriving DecidableEq, Repr

/-- Mirrors `createInitialGameState()` in src/server.js. -/
def createInitialGameState : Game :=
  { currentRound := 1
    maxRounds := 20
    timeRemaining := { hours := 0, minutes := 1, seconds := 0 }
    players := []
    marketChanges :=
      [ { resource := Resource.gold, change := 0, percentage := "+0%" }
      , { resource := Resource.water, change := 0, percentage := "+0%" }
      , { resource := Resource.oil, change := 0, percentage := "+0%" } ]
    marketPrices := { gold := 100, water := 50, oil := 150 }
    recentActions := []
    actionHistory := []
    status := GameStatus.waiting
    host := none
    timerActive := false
    roundDelay := none
    exitedPlayers := []
    winner := none
    finalScores := [] }

/-- Rewrite the first list entry satisfying `pred` with `f`; models JS code
that mutates the object returned by `players.find(...)`. -/
def updateFirst (pred : Player → Bool) (f : Player → Player) : List Player → List Player
  | [] => []
  | p :: ps => if pred p then f p :: ps else p :: updateFirst pred f ps

inductive PlayerAction
  | Buy
  | Sell
  | Burn
  | Sabotage
deriving DecidableEq, Repr

/-- Mirrors `resource.charAt(0).toUpperCase() + resource.slice(1)` for the three
valid resource strings. -/
def capRes : Resource → String
  | Resource.gold => "Gold"
  | Resource.water => "Water"
  | Resource.oil => "Oil"

/-- Burn case: bump the matching market change indicator by `delta` and
refresh its percentage string (mutation of `marketChanges.find(...)`). -/
def bumpChange : List MarketChange → Resource → Int → List MarketChange
  | [], _, _ => []
  | c :: cs, res, d =>
      if c.resource = res then
        { c with change := c.change + d, percentage := pctString (c.change + d) } :: cs
      else
        c :: bumpChange cs res d

/-- The predicate `p => p.id === someId` used by every `players.find` call. -/
def idIs (someId : String) (p : Player) : Bool := p.id == someId

/-- Buy case mutation: `player.tokens -= price; player.assets[res] += amount`. -/
def buyUpdate (price : Int) (res : Resource) (amount : Nat) (p : Player) : Player :=
  { p with
      tokens := p.tokens - price
      assets := p.assets.set res (p.assets.get res + amount) }

/-- Sell case mutation: `player.tokens += sellPrice; player.assets[res] -= amount`. -/
def sellUpdate (sellPrice : Int) (res : Resource) (amount : Nat) (p : Player) : Player :=
  { p with
      tokens := p.tokens + sellPrice
      assets := p.assets.set res (p.assets.get res - amount) }

/-- Burn case mutation: `player.assets[res] -= amount`. -/
def burnUpdate (res : Resource) (amount : Nat) (p : Player) : Player :=
  { p with assets := p.assets.set res (p.assets.get res - amount) }

/-- Sabotage case, first step: `player.tokens -= 100`. -/
def chargeSabotage (p : Player) : Player := { p with tokens := p.tokens - 100 }

/-- Sabotage case, second step on the target: the asset is floored at zero
(`Math.max(0, …)`, here natural subtraction) and `totalAssets` recomputed. -/
def sabotageTarget (res : Resource) (amount : Nat) (p : Player) : Player :=
  let a2 := p.assets.set res (p.assets.get res - amount)
  { p with assets := a2, totalAssets := sumAssets a2 }

/-- The post-switch recomputation
`player.totalAssets = gold + water + oil` (src/server.js lines 607-609). -/
def recomputeTotal (p : Player) : Player :=
  { p with totalAssets := sumAssets p.assets }

/-- The `switch (action)` body of the `player-action` handler
(src/server.js lines 541-605).  Returns the updated player list, the updated
market change list and the `actionText` string (`""` when nothing happened,
as in the JS code). -/
def resolveAction (g : Game) (player : Player) (actorId : String)
    (action : PlayerAction) (res : Resource) (amount : Nat)
    (targetPlayer : Option String) : List Player × List MarketChange × String :=
  let price : Nat := g.marketPrices.get res * amount
  match action with
  | PlayerAction.Buy =>
      if (price : Int) ≤ player.tokens then
        ( updateFirst (idIs actorId) (buyUpdate (price : Int) res amount) g.players
        , g.marketChanges
        , player.name ++ (" bought " ++ (toString amount ++ (" " ++ (capRes res ++
            (" for " ++ (toString price ++ " tokens")))))) )
      else (g.players, g.marketChanges, "")
  | PlayerAction.Sell =>
      if amount ≤ player.assets.get res then
        let sellPrice : Nat := (4 * price) / 5
        ( updateFirst (idIs actorId) (sellUpdate (sellPrice : Int) res amount) g.players
        , g.marketChanges
        , player.name ++ (" sold " ++ (toString amount ++ (" " ++ (capRes res ++
            (" for " ++ (toString sellPrice ++ " tokens")))))) )
      else (g.players, g.marketChanges, "")
  | PlayerAction.Burn =>
      if amount ≤ player.assets.get res then
        ( updateFirst (idIs actorId) (burnUpdate res amount) g.players
        , bumpChange g.marketChanges res ((amount : Int) * 3)
        , player.name ++ (" burned " ++ (toString amount ++ (" " ++ (capRes res ++
            " to boost market price")))) )
      else (g.players, g.marketChanges, "")
  | PlayerAction.Sabotage =>
      match targetPlayer with
      | none => (g.players, g.marketChanges, "")
      | some tid =>
          if 100 ≤ player.tokens then
            -- the 100-token charge happens before the target is inspected
            let ps1 := updateFirst (idIs actorId) chargeSabotage g.players
            match ps1.find? (idIs tid) with
            | none => (ps1, g.marketChanges, "")
            | some target =>
                if amount ≤ target.assets.get res then
                  ( updateFirst (idIs tid) (sabotageTarget res amount) ps1
                  , g.marketChanges
                  , player.name ++ (" sabotaged " ++ (target.name ++ ("\x27s " ++
                      (capRes res ++ " reserves")))) )
                else (ps1, g.marketChanges, "")
          else (g.players, g.marketChanges, "")

/-- The full `player-action` socket handler (src/server.js lines 506-620):
status / player lookup guards, the action switch, the unconditional
`totalAssets` recomputation on the acting player, and the bounded
`recentActions` log. -/
def applyPlayerAction (g : Game) (actorId : String) (action : PlayerAction)
    (res : Resource) (amount : Nat) (targetPlayer : Option String) : Game :=
  if g.status ≠ GameStatus.playing then g else
  match g.players.find? (idIs actorId) with
  | none => g
  | some player =>
      let r := resolveAction g player actorId action res amount targetPlayer
      let players2 := updateFirst (idIs actorId) recomputeTotal r.1
      let recent2 :=
        if r.2.2 ≠ "" then (r.2.2 :: g.recentActions).take 10 else g.recentActions
      { g with players := players2, marketChanges := r.2.1, recentActions := recent2 }

/-- Outcome of the `join-game` handler for an existing session. -/
inductive JoinOutcome
  | err (message : String)
  | joined (player : Player)
deriving DecidableEq, Repr

/-- Handler `join-game` on a session already present in memory
(src/server.js lines 225-246): capacity check, status check, then append the
created player.  Returns the (possibly unchanged) session and the outcome. -/
def joinGame (g : Game) (playerName : String) (walletAddress : Option String)
    (genId : String) : Game × JoinOutcome :=
  if 4 ≤ g.players.length then (g, JoinOutcome.err "Game is full")
  else if g.status ≠ GameStatus.waiting then (g, JoinOutcome.err "Game already in progress")
  else
    let playerId := walletAddress.getD genId
    let player := createPlayer playerId playerName walletAddress
    ({ g with players := g.players ++ [player] }, JoinOutcome.joined player)

/-- JS `Set.prototype.add` on the `exitedPlayers` set. -/
def addExited (l : List String) (pid : String) : List String :=
  if l.contains pid then l else l ++ [pid]

/-- Mirrors `removePlayerFromGame(gameId, playerId)` (src/server.js 707-713). -/
def removePlayerFromGame (g : Game) (playerId : String) : Game :=
  { g with players := g.players.filter (fun p => p.id != playerId) }

/-- Outcome of the `exit-game` handler: the session is either closed
(`closeGame` path, all players exited or disconnected) or continues with the
exiting player removed. -/
inductive ExitOutcome
  | closed
  | continuing (g : Game)
deriving DecidableEq, Repr

/-- Handler `exit-game` (src/server.js lines 400-450): record the exit,
close when every player has exited or disconnected, otherwise remove the
player from the in-memory list.  Note that `game.host` is never touched. -/
def exitGame (g : Game) (playerId : String) : ExitOutcome :=
  let g1 := { g with exitedPlayers := addExited g.exitedPlayers playerId }
  let allPlayersExited :=
    g1.players.all (fun p => g1.exitedPlayers.contains p.id || !p.connected)
  if allPlayersExited then ExitOutcome.closed
  else ExitOutcome.continuing (removePlayerFromGame g1 playerId)

/-- Handler `disconnect` (src/server.js lines 623-653): mark the player
disconnected; if the disconnecting player is the host, reassign the host to
the first still-connected player, if any. -/
def handleDisconnect (g : Game) (playerId : String) : Game :=
  let ps := updateFirst (idIs playerId)
    (fun p => { p with connected := false }) g.players
  let g1 := { g with players := ps }
  if g1.host == some playerId then
    match (g1.players.filter (fun p => p.connected)).head? with
    | some p => { g1 with host := some p.id }
    | none => g1
  else g1

/-- Per-player scoring step of `finishGame`:
`finalScore = tokens + gold*price + water*price + oil*price`. -/
def scorePlayer (prices : MarketPrices) (p : Player) : ScoredPlayer :=
  { player := p
    finalScore := p.tokens + (p.assets.gold : Int) * (prices.gold : Int)
      + (p.assets.water : Int) * (prices.water : Int)
      + (p.assets.oil : Int) * (prices.oil : Int) }

/-- Stable insertion step for the descending-score sort.  An element is
inserted before the first entry whose score it matches or exceeds, which is
exactly the stable order produced by
`finalPlayers.sort((a, b) => b.finalScore - a.finalScore)`. -/
def insertDesc (x : ScoredPlayer) : List ScoredPlayer → List ScoredPlayer
  | [] => [x]
  | y :: ys => if y.finalScore ≤ x.finalScore then x :: y :: ys else y :: insertDesc x ys

/-- Stable sort by descending `finalScore`, modelling the JS stable
`Array.prototype.sort` with comparator `(a, b) => b.finalScore - a.finalScore`. -/
def sortDesc : List ScoredPlayer → List ScoredPlayer
  | [] => []
  | x :: xs => insertDesc x (sortDesc xs)

/-- Mirrors `finishGame` (src/server.js lines 657-704): score every player at the
current market prices, sort descending (stable), record winner and ranking. -/
def finishGame (g : Game) : Game :=
  let finalPlayers := sortDesc (g.players.map (scorePlayer g.marketPrices))
  { g with
      status := GameStatus.finished
      timerActive := false
      winner := finalPlayers.head?
      finalScores := finalPlayers }

/-- Models `Math.floor(Math.random() * 40) - 20` with the random draw `r ∈ [0, 1)`
made explicit (src/server.js line 827). -/
def randomChange (r : Rat) : Int := ⌊r * 40⌋ - 20

/-- The re-randomisation of `game.marketChanges` at a round start
(src/server.js lines 826-833); `rs i` is the `Math.random()` draw used for
the `i`-th indicator. -/
def rerandomize (rs : Nat → Rat) : Nat → List MarketChange → List MarketChange
  | _, [] => []
  | i, c :: cs =>
      let rc := randomChange (rs i)
      { c with change := rc, percentage := pctString rc } :: rerandomize rs (i + 1) cs

/-- Normal countdown part of the timer tick (src/server.js lines 842-876). -/
def tickCountdown (g : Game) : Game :=
  let s0 := g.timeRemaining.seconds - 1
  let m0 := g.timeRemaining.minutes
  let h0 := g.timeRemaining.hours
  let s1 := if s0 < 0 then 59 else s0
  let m1 := if s0 < 0 then m0 - 1 else m0
  let m2 := if m1 < 0 then 59 else m1
  let h1 := if m1 < 0 then h0 - 1 else h0
  if h1 < 0 then
    { g with roundDelay := some { active := true, timeRemaining := 10 } }
  else
    { g with timeRemaining := { hours := h1, minutes := m2, seconds := s1 } }

/-- One firing of the per-session `setInterval` body installed by
`startGameTimer` (src/server.js lines 788-880).  `rs` supplies the
`Math.random()` draws used if this tick starts a new round. -/
def tick (rs : Nat → Rat) (g : Game) : Game :=
  if !g.timerActive then g
  else
    match g.roundDelay with
    | some rd =>
        if rd.active then
          let t := rd.timeRemaining - 1
          if t ≤ 0 then
            let hist :=
              if 0 < g.recentActions.length then
                (g.currentRound, g.recentActions) :: g.actionHistory
              else g.actionHistory
            let newRound := g.currentRound + 1
            let g1 := { g with
              roundDelay := none
              actionHistory := hist
              currentRound := newRound
              recentActions := [] }
            if g.maxRounds < newRound then finishGame g1
            else
              { g1 with
                  timeRemaining := { hours := 0, minutes := 1, seconds := 0 }
                  marketChanges := rerandomize rs 0 g1.marketChanges }
          else { g with roundDelay := some { rd with timeRemaining := t } }
        else tickCountdown g
    | none => tickCountdown g

/-- Runs `n` consecutive timer ticks; `rss k` supplies the random draws available
to the `k`-th tick. -/
def ticks (rss : Nat → Nat → Rat) : Nat → Game → Game
  | 0, g => g
  | n + 1, g => tick (rss n) (ticks rss n g)

/-- Payload of the `update-market-prices` event; a missing field models a JS
`undefined` (falsy) entry. -/
structure PricePayload where
  gold_price : Option Nat
  water_price : Option Nat
  oil_price : Option Nat
deriving DecidableEq, Repr

/-- JS `marketPrices.gold_price || game.marketPrices.gold`: a falsy payload
value (absent or zero) keeps the old price. -/
def jsOrPrice (v : Option Nat) (old : Nat) : Nat :=
  match v with
  | none => old
  | some n => if n = 0 then old else n

/-- The three-criteria host check used by `start-game` and
`update-market-prices` (src/server.js lines 462-467).  The outer `Option`
distinguishes a failed `players.find` (JS `undefined`) from a player whose
wallet is `null`. -/
def isHostOf (g : Game) (pid : String) : Bool :=
  (g.host == some pid)
  || ((g.players.find? (fun p => p.id == pid)).map (fun p => p.walletAddress)
        == (match g.host with
            | none => none
            | some h => (g.players.find? (fun p => p.id == h)).map (fun p => p.walletAddress)))
  || (match g.players with
      | [] => false
      | p :: _ => p.id == pid)

/-- Handler `update-market-prices` (src/server.js lines 453-503). -/
def updateMarketPrices (g : Game) (callerId : String)
    (payload : Option PricePayload) : Game :=
  if g.status ≠ GameStatus.playing then g
  else if !(isHostOf g callerId) then g
  else
    match payload with
    | none => g
    | some mp =>
        { g with marketPrices :=
            { gold := jsOrPrice mp.gold_price g.marketPrices.gold
              water := jsOrPrice mp.water_price g.marketPrices.water
              oil := jsOrPrice mp.oil_price g.marketPrices.oil } }

/-- The persisted `games` row fields relevant to the verified properties
(src/services/database.js). -/
structure DbRecord where
  players : List Player
  current_players : Nat
  status : GameStatus
deriving DecidableEq, Repr

/-- Mirrors `GameDatabase.createGame`: `current_players` is written as the length of
the player snapshot. -/
def dbCreateGame (players : List Player) : DbRecord :=
  { players := players, current_players := players.length, status := GameStatus.waiting }

/-- Mirrors `GameDatabase.addPlayerToGame`: appends the player and rewrites
`current_players` to the new snapshot length. -/
def dbAddPlayerToGame (db : DbRecord) (p : Player) : DbRecord :=
  { db with players := db.players ++ [p], current_players := (db.players ++ [p]).length }

/-- An in-memory session paired with its persisted record. -/
structure SessionPair where
  mem : Game
  db : DbRecord
deriving DecidableEq, Repr

/-- Handler `create-game`: build the initial state with the host player and
persist it via `GameDatabase.createGame`. -/
def createGamePair (playerId playerName : String) (wallet : Option String) : SessionPair :=
  let player := createPlayer playerId playerName wallet
  { mem := { createInitialGameState with players := [player], host := some playerId }
    db := dbCreateGame [player] }

/-- Handler `join-game` effect on memory and store: on success the player is
appended in memory and persisted via `GameDatabase.addPlayerToGame`. -/
def joinGamePair (s : SessionPair) (playerName : String) (wallet : Option String)
    (genId : String) : SessionPair :=
  let r := joinGame s.mem playerName wallet genId
  match r.2 with
  | JoinOutcome.err _ => { s with mem := r.1 }
  | JoinOutcome.joined p => { mem := r.1, db := dbAddPlayerToGame s.db p }

/-- Handler `exit-game` effect on memory and store: the continuing branch
calls `removePlayerFromGame`, which touches only the in-memory state — the
persisted row is not updated. -/
def exitGamePair (s : SessionPair) (pid : String) : Option SessionPair :=
  match exitGame s.mem pid with
  | ExitOutcome.closed => none
  | ExitOutcome.continuing g => some { s with mem := g }

/-- Every player record carries a `totalAssets` equal to the sum of its
asset quantities. -/
def totalsOk (ps : List Player) : Prop :=
  ∀ p ∈ ps, p.totalAssets = sumAssets p.assets

instance decidableTotalsOk (ps : List Player) : Decidable (totalsOk ps) := by
  unfold totalsOk
  infer_instance

/-- The spec-side precondition of an action being UNMET for the acting
player (§4.3 of the spec): Buy lacks tokens, Sell/Burn lack the asset,
Sabotage lacks tokens, a (truthy) target, or a resolvable target holding at
least `amount` of the resource. -/
def actionPrecondUnmet (g : Game) (player : Player) (action : PlayerAction)
    (res : Resource) (amount : Nat) (targetPlayer : Option String) : Bool :=
  match action with
  | PlayerAction.Buy =>
      decide (player.tokens < ((g.marketPrices.get res * amount : Nat) : Int))
  | PlayerAction.Sell => decide (player.assets.get res < amount)
  | PlayerAction.Burn => decide (player.assets.get res < amount)
  | PlayerAction.Sabotage =>
      decide (player.tokens < 100)
      || (match targetPlayer with
          | none => true
          | some tid =>
              match g.players.find? (fun p => p.id == tid) with
              | none => true
              | some t => decide (t.assets.get res < amount))

/-- Whether a Sabotage attempt reaches the 100-token charge in the code:
the acting player holds at least 100 tokens and a (truthy) target id was
supplied — regardless of whether the target can actually be sabotaged. -/
def sabotageCharged (player : Player) (action : PlayerAction)
    (targetPlayer : Option String) : Bool :=
  (action == PlayerAction.Sabotage) && decide (100 ≤ player.tokens) && targetPlayer.isSome

/-- A two-player waiting-room player used by the concrete instances below. -/
def samplePlayer (i n : String) : Player := createPlayer i n none

/-- A running two-player session used by the concrete instances below. -/
def gBase : Game :=
  { createInitialGameState with
      status := GameStatus.playing
      timerActive := true
      players := [samplePlayer "A" "Alice", samplePlayer "B" "Bob"]
      host := some "A" }

/-- The state reached from `gBase` after the host "A" exits. -/
def gBaseAfterHostExit : Game :=
  { gBase with players := [samplePlayer "B" "Bob"], exitedPlayers := ["A"] }

/-- Memory/store pair after create("A"), join("Bob"), exit("A"). -/
def c5after : Option SessionPair :=
  exitGamePair (joinGamePair (createGamePair "A" "Alice" none) "Bob" none "Bgen") "A"

/-- State `gBase` one tick away from the RoundDelay-to-Counting transition. -/
def gDelay : Game :=
  { gBase with roundDelay := some { active := true, timeRemaining := 1 } }

/-- A running three-player session for the host-failover scenario. -/
def gTrio : Game :=
  { createInitialGameState with
      status := GameStatus.playing
      timerActive := true
      players := [samplePlayer "A" "Alice", samplePlayer "B" "Bob", samplePlayer "C" "Carol"]
      host := some "A" }

section Helpers

theorem find?_updateFirst (pred : Player → Bool) (f : Player → Player)
    (l : List Player) (hpres : ∀ x, pred (f x) = pred x) :
    (updateFirst pred f l).find? pred = (l.find? pred).map f := by
  induction l with
  | nil => rfl
  | cons x xs ih =>
      by_cases hx : pred x
      · simp [updateFirst, hx, List.find?_cons_of_pos, hpres x]
      · simp only [updateFirst, hx, Bool.false_eq_true, if_false]
        rw [List.find?_cons_of_neg _ (by simp [hx]), List.find?_cons_of_neg _ (by simp [hx]), ih]

theorem updateFirst_eq_self (pred : Player → Bool) (f : Player → Player) :
    ∀ (l : List Player) (x : Player), l.find? pred = some x → f x = x →
      updateFirst pred f l = l := by
  intro l
  induction l with
  | nil => intro x hx; simp at hx
  | cons y ys ih =>
      intro x hx hfx
      by_cases hy : pred y
      · rw [List.find?_cons_of_pos _ hy] at hx
        injection hx with hx
        subst hx
        simp [updateFirst, hy, hfx]
      · rw [List.find?_cons_of_neg _ (by simp [hy])] at hx
        simp [updateFirst, hy, ih x hx hfx]

theorem updateFirst_of_find?_none (pred : Player → Bool) (f : Player → Player) :
    ∀ l : List Player, l.find? pred = none → updateFirst pred f l = l := by
  intro l
  induction l with
  | nil => intro _; rfl
  | cons y ys ih =>
      intro hx
      by_cases hy : pred y
      · rw [List.find?_cons_of_pos _ hy] at hx; exact absurd hx (by simp)
      · rw [List.find?_cons_of_neg _ (by simp [hy])] at hx
        simp [updateFirst, hy, ih hx]

theorem updateFirst_comp (pred : Player → Bool) (f f' : Player → Player)
    (l : List Player) (hpres : ∀ x, pred (f' x) = pred x) :
    updateFirst pred f (updateFirst pred f' l) = updateFirst pred (fun x => f (f' x)) l := by
  induction l with
  | nil => rfl
  | cons x xs ih =>
      by_cases hx : pred x
      · simp [updateFirst, hx, hpres x]
      · simp [updateFirst, hx, ih]

theorem mem_updateFirst (pred : Player → Bool) (f : Player → Player) :
    ∀ (l : List Player) (q : Player), q ∈ updateFirst pred f l →
      q ∈ l ∨ ∃ x ∈ l, q = f x := by
  intro l
  induction l with
  | nil => intro q hq; simp [updateFirst] at hq
  | cons x xs ih =>
      intro q hq
      by_cases hx : pred x
      · simp only [updateFirst, hx, if_true, List.mem_cons] at hq
        rcases hq with hq | hq
        · exact Or.inr ⟨x, List.mem_cons_self x xs, hq⟩
        · exact Or.inl (List.mem_cons_of_mem x hq)
      · simp only [updateFirst, hx, Bool.false_eq_true, if_false, List.mem_cons] at hq
        rcases hq with hq | hq
        · exact Or.inl (hq ▸ List.mem_cons_self x xs)
        · rcases ih q hq with h | ⟨y, hy, hqy⟩
          · exact Or.inl (List.mem_cons_of_mem x h)
          · exact Or.inr ⟨y, List.mem_cons_of_mem x hy, hqy⟩

theorem find?_updateFirst_assets (pred pred' : Player → Bool) (f : Player → Player)
    (l : List Player) (hpres : ∀ x, pred' (f x) = pred' x)
    (hassets : ∀ x, (f x).assets = x.assets) :
    ((updateFirst pred f l).find? pred').map Player.assets
      = (l.find? pred').map Player.assets := by
  induction l with
  | nil => rfl
  | cons x xs ih =>
      by_cases hx : pred x
      · by_cases hx' : pred' x
        · simp only [updateFirst, hx, if_true]
          rw [List.find?_cons_of_pos _ (by rw [hpres x]; exact hx'),
            List.find?_cons_of_pos _ hx']
          simp [hassets x]
        · simp only [updateFirst, hx, if_true]
          rw [List.find?_cons_of_neg _ (by simp [hpres x, hx']),
            List.find?_cons_of_neg _ (by simp [hx'])]
      · by_cases hx' : pred' x
        · simp only [updateFirst, hx, Bool.false_eq_true, if_false]
          rw [List.find?_cons_of_pos _ hx', List.find?_cons_of_pos _ hx']
        · simp only [updateFirst, hx, Bool.false_eq_true, if_false]
          rw [List.find?_cons_of_neg _ (by simp [hx']),
            List.find?_cons_of_neg _ (by simp [hx']), ih]

theorem filter_head?_eq_find? (p : Player → Bool) :
    ∀ l : List Player, (l.filter p).head? = l.find? p := by
  intro l
  induction l with
  | nil => rfl
  | cons x xs ih =>
      by_cases hx : p x
      · simp [List.filter_cons, hx, List.find?_cons_of_pos]
      · simp only [List.filter_cons, hx, Bool.false_eq_true, if_false]
        rw [ih, List.find?_cons_of_neg _ (by simp [hx])]

theorem setTotal_self (p : Player) (h : p.totalAssets = sumAssets p.assets) :
    { p with totalAssets := sumAssets p.assets } = p := by
  cases p
  simp_all

end Helpers

section SortLemmas

theorem mem_insertDesc (z x : ScoredPlayer) :
    ∀ l : List ScoredPlayer, z ∈ insertDesc x l ↔ z = x ∨ z ∈ l := by
  intro l
  induction l with
  | nil => simp [insertDesc]
  | cons y ys ih =>
      by_cases h : y.finalScore ≤ x.finalScore
      · simp [insertDesc, h]
      · simp only [insertDesc, h, if_false, List.mem_cons, ih]
        tauto

theorem mem_sortDesc (z : ScoredPlayer) :
    ∀ l : List ScoredPlayer, z ∈ sortDesc l ↔ z ∈ l := by
  intro l
  induction l with
  | nil => simp [sortDesc]
  | cons x xs ih => simp [sortDesc, mem_insertDesc, ih]

theorem pairwise_insertDesc (x : ScoredPlayer) :
    ∀ l : List ScoredPlayer,
      l.Pairwise (fun a b => b.finalScore ≤ a.finalScore) →
      (insertDesc x l).Pairwise (fun a b => b.finalScore ≤ a.finalScore) := by
  intro l
  induction l with
  | nil => intro _; simp [insertDesc]
  | cons y ys ih =>
      intro hl
      rw [List.pairwise_cons] at hl
      by_cases h : y.finalScore ≤ x.finalScore
      · simp only [insertDesc, h, if_true]
        rw [List.pairwise_cons]
        refine ⟨?_, List.pairwise_cons.2 hl⟩
        intro z hz
        rcases List.mem_cons.1 hz with hz | hz
        · exact hz ▸ h
        · exact le_trans (hl.1 z hz) h
      · simp only [insertDesc, h, if_false]
        rw [List.pairwise_cons]
        refine ⟨?_, ih hl.2⟩
        intro z hz
        rcases (mem_insertDesc z x ys).1 hz with hz | hz
        · exact hz ▸ le_of_lt (lt_of_not_le h)
        · exact hl.1 z hz

theorem pairwise_sortDesc :
    ∀ l : List ScoredPlayer,
      (sortDesc l).Pairwise (fun a b => b.finalScore ≤ a.finalScore) := by
  intro l
  induction l with
  | nil => simp [sortDesc]
  | cons x xs ih => exact pairwise_insertDesc x (sortDesc xs) ih

theorem filter_insertDesc (x : ScoredPlayer) (s : Int) :
    ∀ l : List ScoredPlayer,
      (insertDesc x l).filter (fun a => a.finalScore == s)
        = if x.finalScore == s then x :: l.filter (fun a => a.finalScore == s)
          else l.filter (fun a => a.finalScore == s) := by
  intro l
  induction l with
  | nil => cases hx : (x.finalScore == s) <;> simp [insertDesc, List.filter, hx]
  | cons y ys ih =>
      by_cases h : y.finalScore ≤ x.finalScore
      · simp only [insertDesc, h, if_true]
        cases hx : (x.finalScore == s) <;> simp [List.filter_cons, hx]
      · simp only [insertDesc, h, if_false, List.filter_cons, ih]
        by_cases hy : (y.finalScore == s)
        · have hxs : (x.finalScore == s) = false := by
            have hys : y.finalScore = s := by simpa using hy
            have : ¬ x.finalScore = s := fun hxe => h (le_of_eq (hys.trans hxe.symm))
            simpa using this
          simp [hy, hxs]
        · simp only [Bool.not_eq_true] at hy
          by_cases hx : (x.finalScore == s) <;> simp [hy, hx]

theorem filter_sortDesc (s : Int) :
    ∀ l : List ScoredPlayer,
      (sortDesc l).filter (fun a => a.finalScore == s)
        = l.filter (fun a => a.finalScore == s) := by
  intro l
  induction l with
  | nil => rfl
  | cons x xs ih =>
      simp only [sortDesc, filter_insertDesc, ih, List.filter_cons]

theorem sortDesc_head_spec :
    ∀ l : List ScoredPlayer, l ≠ [] →
      ∃ w pre post, (sortDesc l).head? = some w ∧ l = pre ++ w :: post ∧
        (∀ q ∈ pre, q.finalScore < w.finalScore) ∧
        (∀ q ∈ l, q.finalScore ≤ w.finalScore) := by
  intro l
  induction l with
  | nil => intro h; exact absurd rfl h
  | cons x xs ih =>
      intro _
      by_cases hxs : xs = []
      · subst hxs
        exact ⟨x, [], [], rfl, rfl, by simp, by simp⟩
      · obtain ⟨w', pre', post', hh, hdec, hpre, hmax⟩ := ih hxs
        obtain ⟨t, ht⟩ : ∃ t, sortDesc xs = w' :: t := by
          cases hsx : sortDesc xs with
          | nil => rw [hsx] at hh; exact absurd hh (by simp)
          | cons a b =>
              rw [hsx] at hh
              simp only [List.head?_cons, Option.some.injEq] at hh
              exact ⟨b, by rw [hh]⟩

        have hsort : sortDesc (x :: xs) = insertDesc x (w' :: t) := by
          simp [sortDesc, ht]
        by_cases hge : w'.finalScore ≤ x.finalScore
        · refine ⟨x, [], xs, ?_, rfl, by simp, ?_⟩
          · rw [hsort]; simp [insertDesc, hge]
          · intro q hq
            rcases List.mem_cons.1 hq with hq | hq
            · exact le_of_eq (by rw [hq])
            · exact le_trans (hmax q hq) hge
        · refine ⟨w', x :: pre', post', ?_, by rw [hdec]; rfl, ?_, ?_⟩
          · rw [hsort]; simp [insertDesc, hge]
          · intro q hq
            rcases List.mem_cons.1 hq with hq | hq
            · exact hq ▸ lt_of_not_le hge
            · exact hpre q hq
          · intro q hq
            rcases List.mem_cons.1 hq with hq | hq
            · exact hq ▸ le_of_lt (lt_of_not_le hge)
            · exact hmax q hq

end SortLemmas

section TickLemmas

theorem tick_countdown_sec (rs : Nat → Rat) (g : Game) (m : Nat)
    (hA : g.timerActive = true) (hD : g.roundDelay = none)
    (hT : g.timeRemaining = ⟨0, 0, (m : Int) + 1⟩) :
    tick rs g = { g with timeRemaining := ⟨0, 0, (m : Int)⟩ } := by
  have h1 : ¬((m : Int) + 1 - 1 < 0) := by omega
  have h2 : ¬((0 : Int) < 0) := by omega
  have h3 : (m : Int) + 1 - 1 = (m : Int) := by omega
  have h4 : ¬((m : Int) < 0) := by omega
  simp only [tick, hA, hD, Bool.not_true, Bool.false_eq_true, if_false,
    tickCountdown, hT, h1, h2, h4, if_false, h3]

theorem tick_minute (rs : Nat → Rat) (g : Game)
    (hA : g.timerActive = true) (hD : g.roundDelay = none)
    (hT : g.timeRemaining = ⟨0, 1, 0⟩) :
    tick rs g = { g with timeRemaining := ⟨0, 0, 59⟩ } := by
  simp only [tick, hA, hD, Bool.not_true, Bool.false_eq_true, if_false,
    tickCountdown, hT]
  norm_num

theorem tick_to_delay (rs : Nat → Rat) (g : Game)
    (hA : g.timerActive = true) (hD : g.roundDelay = none)
    (hT : g.timeRemaining = ⟨0, 0, 0⟩) :
    tick rs g = { g with roundDelay := some { active := true, timeRemaining := 10 } } := by
  simp only [tick, hA, hD, Bool.not_true, Bool.false_eq_true, if_false,
    tickCountdown, hT]
  norm_num

theorem tick_delay_pos (rs : Nat → Rat) (g : Game) (t : Int)
    (hA : g.timerActive = true)
    (hD : g.roundDelay = some { active := true, timeRemaining := t })
    (ht : 1 < t) :
    tick rs g = { g with roundDelay := some { active := true, timeRemaining := t - 1 } } := by
  have h1 : ¬(t - 1 ≤ 0) := by omega
  simp only [tick, hA, hD, Bool.not_true, Bool.false_eq_true, if_false, if_true, h1]

theorem tick_delay_end (rs : Nat → Rat) (g : Game) (t : Int)
    (hA : g.timerActive = true)
    (hD : g.roundDelay = some { active := true, timeRemaining := t })
    (ht : t ≤ 1) (hmax : g.currentRound + 1 ≤ g.maxRounds) :
    tick rs g = { g with
      roundDelay := none
      actionHistory :=
        if 0 < g.recentActions.length then
          (g.currentRound, g.recentActions) :: g.actionHistory
        else g.actionHistory
      currentRound := g.currentRound + 1
      recentActions := []
      timeRemaining := ⟨0, 1, 0⟩
      marketChanges := rerandomize rs 0 g.marketChanges } := by
  have h1 : t - 1 ≤ 0 := by omega
  have h2 : ¬(g.maxRounds < g.currentRound + 1) := by omega
  simp only [tick, hA, hD, Bool.not_true, Bool.false_eq_true, if_false, if_true, h1, h2]

theorem ticks_add (rss : Nat → Nat → Rat) (a b : Nat) (g : Game) :
    ticks rss (a + b) g = ticks (fun i => rss (a + i)) b (ticks rss a g) := by
  induction b with
  | zero => rfl
  | succ n ih =>
      show tick (rss (a + n)) (ticks rss (a + n) g)
        = tick (rss (a + n)) (ticks (fun i => rss (a + i)) n (ticks rss a g))
      rw [ih]

theorem ticks_countdown (rss : Nat → Nat → Rat) (g : Game) (s : Nat)
    (hA : g.timerActive = true) (hD : g.roundDelay = none)
    (hT : g.timeRemaining = ⟨0, 0, (s : Int)⟩) :
    ticks rss s g = { g with timeRemaining := ⟨0, 0, 0⟩ } := by
  have key : ∀ k, k ≤ s →
      ticks rss k g = { g with timeRemaining := ⟨0, 0, ((s - k : Nat) : Int)⟩ } := by
    intro k
    induction k with
    | zero =>
        intro _
        show g = _
        simp only [Nat.sub_zero]
        rw [← hT]
    | succ n ih =>
        intro hns
        show tick (rss n) (ticks rss n g) = _
        rw [ih (by omega)]
        have hcast : ((s - n : Nat) : Int) = ((s - (n + 1) : Nat) : Int) + 1 := by omega
        rw [tick_countdown_sec (rss n) _ (s - (n + 1)) (by simp [hA]) (by simp [hD])
          (by simp only []; rw [hcast])]
  have := key s (le_refl s)
  simpa using this

theorem ticks_delay (rss : Nat → Nat → Rat) (g : Game) (d : Nat)
    (hA : g.timerActive = true)
    (hD : g.roundDelay = some { active := true, timeRemaining := (d : Int) + 1 }) :
    ∀ k, k ≤ d →
      ticks rss k g
        = { g with roundDelay := some { active := true, timeRemaining := ((d - k : Nat) : Int) + 1 } } := by
  intro k
  induction k with
  | zero =>
      intro _
      show g = _
      simp only [Nat.sub_zero]
      rw [← hD]
  | succ n ih =>
      intro hns
      show tick (rss n) (ticks rss n g) = _
      rw [ih (by omega)]
      have hgt : (1 : Int) < ((d - n : Nat) : Int) + 1 := by omega
      rw [tick_delay_pos (rss n) _ (((d - n : Nat) : Int) + 1) (by simp [hA]) (by simp) hgt]
      have hcast : ((d - n : Nat) : Int) + 1 - 1 = ((d - (n + 1) : Nat) : Int) + 1 := by omega
      rw [hcast]

end TickLemmas

section ActionLemmas

theorem get_set_self (a : Assets) (r : Resource) (v : Nat) :
    (a.set r v).get r = v := by
  cases r <;> rfl

theorem applyPlayerAction_buy_actor (g : Game) (actorId : String) (res : Resource)
    (amount : Nat) (player : Player)
    (hstatus : g.status = GameStatus.playing)
    (hfind : g.players.find? (idIs actorId) = some player)
    (hbuy : ((g.marketPrices.get res * amount : Nat) : Int) ≤ player.tokens) :
    (applyPlayerAction g actorId PlayerAction.Buy res amount none).players.find?
        (idIs actorId)
      = some (recomputeTotal
          (buyUpdate ((g.marketPrices.get res * amount : Nat) : Int) res amount player))
    ∧ (applyPlayerAction g actorId PlayerAction.Buy res amount none).status = g.status
    ∧ (applyPlayerAction g actorId PlayerAction.Buy res amount none).marketPrices
        = g.marketPrices := by
  have hne : ¬(g.status ≠ GameStatus.playing) := by simp [hstatus]
  simp only [applyPlayerAction, hne, if_false, hfind, resolveAction, hbuy, if_true]
  rw [updateFirst_comp (idIs actorId) recomputeTotal
    (buyUpdate ((g.marketPrices.get res * amount : Nat) : Int) res amount)
    g.players (fun x => rfl)]
  refine ⟨?_, trivial, trivial⟩
  rw [find?_updateFirst (idIs actorId)
    (fun x => recomputeTotal
      (buyUpdate ((g.marketPrices.get res * amount : Nat) : Int) res amount x))
    g.players (fun x => rfl), hfind]
  rfl

theorem applyPlayerAction_sell_actor (g : Game) (actorId : String) (res : Resource)
    (amount : Nat) (player : Player)
    (hstatus : g.status = GameStatus.playing)
    (hfind : g.players.find? (idIs actorId) = some player)
    (hsell : amount ≤ player.assets.get res) :
    (applyPlayerAction g actorId PlayerAction.Sell res amount none).players.find?
        (idIs actorId)
      = some (recomputeTotal
          (sellUpdate (((4 * (g.marketPrices.get res * amount)) / 5 : Nat) : Int)
            res amount player))
    ∧ (applyPlayerAction g actorId PlayerAction.Sell res amount none).status = g.status
    ∧ (applyPlayerAction g actorId PlayerAction.Sell res amount none).marketPrices
        = g.marketPrices := by
  have hne : ¬(g.status ≠ GameStatus.playing) := by simp [hstatus]
  simp only [applyPlayerAction, hne, if_false, hfind, resolveAction, hsell, if_true]
  rw [updateFirst_comp (idIs actorId) recomputeTotal
    (sellUpdate (((4 * (g.marketPrices.get res * amount)) / 5 : Nat) : Int) res amount)
    g.players (fun x => rfl)]
  refine ⟨?_, trivial, trivial⟩
  rw [find?_updateFirst (idIs actorId)
    (fun x => recomputeTotal
      (sellUpdate (((4 * (g.marketPrices.get res * amount)) / 5 : Nat) : Int) res amount x))
    g.players (fun x => rfl), hfind]
  rfl

theorem totalsOk_updateFirst_of (pred : Player → Bool) (f : Player → Player)
    (l : List Player) (h : totalsOk l)
    (hf : ∀ x, (f x).totalAssets = sumAssets (f x).assets) :
    totalsOk (updateFirst pred f l) := by
  intro q hq
  rcases mem_updateFirst pred f l q hq with hq | ⟨x, _, hqx⟩
  · exact h q hq
  · exact hqx ▸ hf x

theorem totalsOk_updateFirst_inv (pred : Player → Bool) (f : Player → Player)
    (l : List Player) (h : totalsOk l)
    (hf : ∀ x ∈ l, x.totalAssets = sumAssets x.assets →
      (f x).totalAssets = sumAssets (f x).assets) :
    totalsOk (updateFirst pred f l) := by
  intro q hq
  rcases mem_updateFirst pred f l q hq with hq | ⟨x, hx, hqx⟩
  · exact h q hq
  · exact hqx ▸ hf x hx (h x hx)

theorem applyPlayerAction_totalsOk (g : Game) (actorId : String)
    (action : PlayerAction) (res : Resource) (amount : Nat)
    (targetPlayer : Option String) (h : totalsOk g.players) :
    totalsOk (applyPlayerAction g actorId action res amount targetPlayer).players := by
  by_cases hst : g.status ≠ GameStatus.playing
  · simp only [applyPlayerAction]
    rw [if_pos hst]
    exact h
  · simp only [applyPlayerAction]
    rw [if_neg hst]
    cases hfind : g.players.find? (idIs actorId) with
    | none => exact h
    | some player =>
        simp only []
        cases action with
        | Buy =>
            simp only [resolveAction]
            by_cases hb : ((g.marketPrices.get res * amount : Nat) : Int) ≤ player.tokens
            · simp only [hb, if_true]
              rw [updateFirst_comp (idIs actorId) recomputeTotal
                (buyUpdate ((g.marketPrices.get res * amount : Nat) : Int) res amount)
                g.players (fun x => rfl)]
              exact totalsOk_updateFirst_of _ _ _ h (fun x => rfl)
            · simp only [hb, if_false]
              exact totalsOk_updateFirst_of _ _ _ h (fun x => rfl)
        | Sell =>
            simp only [resolveAction]
            by_cases hb : amount ≤ player.assets.get res
            · simp only [hb, if_true]
              rw [updateFirst_comp (idIs actorId) recomputeTotal
                (sellUpdate (((4 * (g.marketPrices.get res * amount)) / 5 : Nat) : Int)
                  res amount)
                g.players (fun x => rfl)]
              exact totalsOk_updateFirst_of _ _ _ h (fun x => rfl)
            · simp only [hb, if_false]
              exact totalsOk_updateFirst_of _ _ _ h (fun x => rfl)
        | Burn =>
            simp only [resolveAction]
            by_cases hb : amount ≤ player.assets.get res
            · simp only [hb, if_true]
              rw [updateFirst_comp (idIs actorId) recomputeTotal (burnUpdate res amount)
                g.players (fun x => rfl)]
              exact totalsOk_updateFirst_of _ _ _ h (fun x => rfl)
            · simp only [hb, if_false]
              exact totalsOk_updateFirst_of _ _ _ h (fun x => rfl)
        | Sabotage =>
            simp only [resolveAction]
            cases targetPlayer with
            | none =>
                simp only []
                exact totalsOk_updateFirst_of _ _ _ h (fun x => rfl)
            | some tid =>
                simp only []
                by_cases hb : (100 : Int) ≤ player.tokens
                · simp only [hb, if_true]
                  have hps1 : totalsOk (updateFirst (idIs actorId) chargeSabotage g.players) :=
                    totalsOk_updateFirst_inv _ _ _ h (fun x _ hx => hx)
                  cases hft : (updateFirst (idIs actorId) chargeSabotage g.players).find?
                      (idIs tid) with
                  | none =>
                      simp only []
                      exact totalsOk_updateFirst_of _ _ _ hps1 (fun x => rfl)
                  | some target =>
                      simp only []
                      by_cases hta : amount ≤ target.assets.get res
                      · simp only [hta, if_true]
                        have hps2 := totalsOk_updateFirst_of (idIs tid)
                          (sabotageTarget res amount) _ hps1 (fun x => rfl)
                        exact totalsOk_updateFirst_of _ _ _ hps2 (fun x => rfl)
                      · simp only [hta, if_false]
                        exact totalsOk_updateFirst_of _ _ _ hps1 (fun x => rfl)
                · simp only [hb, if_false]
                  exact totalsOk_updateFirst_of _ _ _ h (fun x => rfl)

end ActionLemmas

/-- C4: when a session finishes, every player's `finalScore` equals
`tokens + assets.gold × marketPrices.gold + assets.water × marketPrices.water
+ assets.oil × marketPrices.oil`; the winner is a maximal-score entry that is
the earliest such entry in join order (all earlier entries score strictly
less); and `finalScores` is the players' scored list stably sorted by
descending `finalScore` (non-increasing, and entries of any fixed score kept
in join order). -/
theorem finishGame_scoring_correct (g : Game) (hne : g.players ≠ []) :
    (∀ sp ∈ (finishGame g).finalScores,
        sp.finalScore = sp.player.tokens
          + (sp.player.assets.gold : Int) * (g.marketPrices.gold : Int)
          + (sp.player.assets.water : Int) * (g.marketPrices.water : Int)
          + (sp.player.assets.oil : Int) * (g.marketPrices.oil : Int))
    ∧ (∃ w pre post,
        (finishGame g).winner = some w
        ∧ g.players.map (scorePlayer g.marketPrices) = pre ++ w :: post
        ∧ (∀ q ∈ pre, q.finalScore < w.finalScore)
        ∧ (∀ q ∈ g.players.map (scorePlayer g.marketPrices),
            q.finalScore ≤ w.finalScore))
    ∧ (finishGame g).finalScores.Pairwise (fun a b => b.finalScore ≤ a.finalScore)
    ∧ (∀ s : Int,
        (finishGame g).finalScores.filter (fun a => a.finalScore == s)
          = (g.players.map (scorePlayer g.marketPrices)).filter
              (fun a => a.finalScore == s)) := by
  have hfs : (finishGame g).finalScores
      = sortDesc (g.players.map (scorePlayer g.marketPrices)) := rfl
  have hw : (finishGame g).winner
      = (sortDesc (g.players.map (scorePlayer g.marketPrices))).head? := rfl
  refine ⟨?_, ?_, ?_, ?_⟩
  · intro sp hsp
    rw [hfs] at hsp
    rcases List.mem_map.1 ((mem_sortDesc sp _).1 hsp) with ⟨p, _, hp⟩
    subst hp
    rfl
  · have hmapne : g.players.map (scorePlayer g.marketPrices) ≠ [] := by
      simpa using hne
    obtain ⟨w, pre, post, hh, hdec, hpre, hmax⟩ := sortDesc_head_spec _ hmapne
    exact ⟨w, pre, post, hw.trans hh, hdec, hpre, hmax⟩
  · rw [hfs]; exact pairwise_sortDesc _
  · intro s; rw [hfs]; exact filter_sortDesc s _

/-- Witness for C4 at the concrete two-player session `gBase` (a score tie:
both players have 1000 tokens and no assets). -/
theorem finishGame_scoring_witness :
    (finishGame gBase).finalScores.Pairwise
      (fun a b => b.finalScore ≤ a.finalScore) :=
  (finishGame_scoring_correct gBase (by decide)).2.2.1

/-- C6: on disconnect of the current host, `host` is reassigned to the first
player (in join order) whose `connected` flag is still true after the
disconnecting player is marked disconnected, and is left unchanged when no
connected player remains; in the three-player scenario [A(host), B, C], A
disconnecting makes B host, then B disconnecting makes C host, and C also
disconnecting leaves host = C. -/
theorem hostFailover_correct (g : Game) (A B C : Player)
    (hps : g.players = [A, B, C]) (hhost : g.host = some A.id)
    (hA : A.connected = true) (hB : B.connected = true) (hC : C.connected = true)
    (hAB : A.id ≠ B.id) (hAC : A.id ≠ C.id) (hBC : B.id ≠ C.id) :
    (∀ (g0 : Game) (pid0 : String), g0.host = some pid0 →
      (handleDisconnect g0 pid0).host =
        (match (updateFirst (idIs pid0) (fun p => { p with connected := false })
            g0.players).find? (fun p => p.connected) with
         | some q => some q.id
         | none => g0.host))
    ∧ (handleDisconnect g A.id).host = some B.id
    ∧ (handleDisconnect (handleDisconnect g A.id) B.id).host = some C.id
    ∧ (handleDisconnect (handleDisconnect (handleDisconnect g A.id) B.id) C.id).host
        = some C.id := by
  have hBA : (B.id == A.id) = false := beq_eq_false_iff_ne.2 (Ne.symm hAB)
  have hCA : (C.id == A.id) = false := beq_eq_false_iff_ne.2 (Ne.symm hAC)
  have hCB : (C.id == B.id) = false := beq_eq_false_iff_ne.2 (Ne.symm hBC)
  refine ⟨?_, ?_⟩
  · intro g0 pid0 hh
    unfold handleDisconnect
    rw [if_pos (by simp [hh])]
    rw [filter_head?_eq_find?]
    cases hfc : (updateFirst (idIs pid0) (fun p => { p with connected := false })
        g0.players).find? (fun p => p.connected) with
    | none => rfl
    | some q => rfl
  · have hBA' : B.id ≠ A.id := Ne.symm hAB
    have hCA' : C.id ≠ A.id := Ne.symm hAC
    have hCB' : C.id ≠ B.id := Ne.symm hBC
    simp [handleDisconnect, hps, hhost, updateFirst, idIs,
      hA, hB, hC, hAB, hAC, hBC, hBA', hCA', hCB', hBA, hCA, hCB]

/-- Witness for C6 on the concrete session `gTrio` with players A, B, C. -/
theorem hostFailover_witness :
    (handleDisconnect gTrio (samplePlayer "A" "Alice").id).host
      = some (samplePlayer "B" "Bob").id ∧
    (handleDisconnect (handleDisconnect gTrio (samplePlayer "A" "Alice").id)
        (samplePlayer "B" "Bob").id).host = some (samplePlayer "C" "Carol").id :=
  let h := hostFailover_correct gTrio (samplePlayer "A" "Alice")
    (samplePlayer "B" "Bob") (samplePlayer "C" "Carol")
    (by decide) (by decide) (by decide) (by decide) (by decide)
    (by decide) (by decide) (by decide)
  ⟨h.2.1, h.2.2.1⟩

/-- C8: `join-game` on an existing session rejects exactly when
`players.length ≥ 4` (message "Game is full", tested first) or the status is
not `waiting` (message "Game already in progress"), leaving the session
unchanged; otherwise it appends the newly created player and succeeds. -/
theorem joinGame_rejects_correct (g : Game) (playerName : String)
    (wallet : Option String) (genId : String) :
    ((∃ m, (joinGame g playerName wallet genId).2 = JoinOutcome.err m)
        ↔ (4 ≤ g.players.length ∨ g.status ≠ GameStatus.waiting))
    ∧ (4 ≤ g.players.length →
        (joinGame g playerName wallet genId).2 = JoinOutcome.err "Game is full"
        ∧ (joinGame g playerName wallet genId).1 = g)
    ∧ (g.players.length < 4 → g.status ≠ GameStatus.waiting →
        (joinGame g playerName wallet genId).2
            = JoinOutcome.err "Game already in progress"
        ∧ (joinGame g playerName wallet genId).1 = g)
    ∧ (g.players.length < 4 → g.status = GameStatus.waiting →
        (joinGame g playerName wallet genId).2
            = JoinOutcome.joined (createPlayer (wallet.getD genId) playerName wallet)
        ∧ (joinGame g playerName wallet genId).1
            = { g with players := g.players
                ++ [createPlayer (wallet.getD genId) playerName wallet] }) := by
  unfold joinGame
  by_cases h4 : 4 ≤ g.players.length
  · rw [if_pos h4]
    refine ⟨⟨fun _ => Or.inl h4, fun _ => ⟨"Game is full", rfl⟩⟩,
      fun _ => ⟨rfl, rfl⟩, ?_, ?_⟩
    · intro hlt; exact absurd h4 (by omega)
    · intro hlt _; exact absurd h4 (by omega)
  · rw [if_neg h4]
    by_cases hw : g.status ≠ GameStatus.waiting
    · rw [if_pos hw]
      refine ⟨⟨fun _ => Or.inr hw, fun _ => ⟨"Game already in progress", rfl⟩⟩,
        fun hge => absurd hge h4, fun _ _ => ⟨rfl, rfl⟩, fun _ hws => absurd hws hw⟩
    · rw [if_neg hw]
      refine ⟨⟨?_, ?_⟩, fun hge => absurd hge h4, fun _ hne => absurd hne hw,
        fun _ _ => ⟨rfl, rfl⟩⟩
      · rintro ⟨m, hm⟩
        exact JoinOutcome.noConfusion hm
      · rintro (hge | hne)
        · exact absurd hge h4
        · exact absurd hne hw

/-- Witness for C8 at a full concrete session (`gBase` padded to 4 players). -/
theorem joinGame_rejects_witness :
    (joinGame { gBase with players := gBase.players
        ++ [samplePlayer "C" "Carol", samplePlayer "D" "Dan"] } "Eve" none "E").2
      = JoinOutcome.err "Game is full" :=
  ((joinGame_rejects_correct { gBase with players := gBase.players
      ++ [samplePlayer "C" "Carol", samplePlayer "D" "Dan"] } "Eve" none "E").2.1
    (by decide)).1

/-- C10: for a playing session and a host caller, a falsy payload field
(absent or zero) leaves that resource's market price unchanged, a non-zero
field overwrites it, and consequently a price that is non-zero can never
become zero through `update-market-prices`. -/
theorem updateMarketPrices_correct (g : Game) (callerId : String) (mp : PricePayload)
    (hstatus : g.status = GameStatus.playing) (hhost : isHostOf g callerId = true) :
    ((mp.gold_price = none ∨ mp.gold_price = some 0) →
        (updateMarketPrices g callerId (some mp)).marketPrices.gold
          = g.marketPrices.gold)
    ∧ (∀ v, mp.gold_price = some v → v ≠ 0 →
        (updateMarketPrices g callerId (some mp)).marketPrices.gold = v)
    ∧ ((mp.water_price = none ∨ mp.water_price = some 0) →
        (updateMarketPrices g callerId (some mp)).marketPrices.water
          = g.marketPrices.water)
    ∧ (∀ v, mp.water_price = some v → v ≠ 0 →
        (updateMarketPrices g callerId (some mp)).marketPrices.water = v)
    ∧ ((mp.oil_price = none ∨ mp.oil_price = some 0) →
        (updateMarketPrices g callerId (some mp)).marketPrices.oil
          = g.marketPrices.oil)
    ∧ (∀ v, mp.oil_price = some v → v ≠ 0 →
        (updateMarketPrices g callerId (some mp)).marketPrices.oil = v)
    ∧ (g.marketPrices.gold ≠ 0 →
        (updateMarketPrices g callerId (some mp)).marketPrices.gold ≠ 0)
    ∧ (g.marketPrices.water ≠ 0 →
        (updateMarketPrices g callerId (some mp)).marketPrices.water ≠ 0)
    ∧ (g.marketPrices.oil ≠ 0 →
        (updateMarketPrices g callerId (some mp)).marketPrices.oil ≠ 0) := by
  have hne : ¬(g.status ≠ GameStatus.playing) := by simp [hstatus]
  have hred : updateMarketPrices g callerId (some mp)
      = { g with marketPrices :=
            { gold := jsOrPrice mp.gold_price g.marketPrices.gold
              water := jsOrPrice mp.water_price g.marketPrices.water
              oil := jsOrPrice mp.oil_price g.marketPrices.oil } } := by
    simp only [updateMarketPrices, hne, if_false, hhost, Bool.not_true,
      Bool.false_eq_true]
  rw [hred]
  refine ⟨?_, ?_, ?_, ?_, ?_, ?_, ?_, ?_, ?_⟩
  · rintro (h | h) <;> simp [jsOrPrice, h]
  · intro v hv hv0; simp [jsOrPrice, hv, hv0]
  · rintro (h | h) <;> simp [jsOrPrice, h]
  · intro v hv hv0; simp [jsOrPrice, hv, hv0]
  · rintro (h | h) <;> simp [jsOrPrice, h]
  · intro v hv hv0; simp [jsOrPrice, hv, hv0]
  · intro h0
    cases hv : mp.gold_price with
    | none => simpa [jsOrPrice, hv] using h0
    | some n =>
        by_cases hn : n = 0
        · simpa [jsOrPrice, hv, hn] using h0
        · simpa [jsOrPrice, hv, hn] using hn
  · intro h0
    cases hv : mp.water_price with
    | none => simpa [jsOrPrice, hv] using h0
    | some n =>
        by_cases hn : n = 0
        · simpa [jsOrPrice, hv, hn] using h0
        · simpa [jsOrPrice, hv, hn] using hn
  · intro h0
    cases hv : mp.oil_price with
    | none => simpa [jsOrPrice, hv] using h0
    | some n =>
        by_cases hn : n = 0
        · simpa [jsOrPrice, hv, hn] using h0
        · simpa [jsOrPrice, hv, hn] using hn

/-- Witness for C10: the host zeroes/omits gold and water but sets oil on
`gBase`; gold and water prices survive, oil is overwritten. -/
theorem updateMarketPrices_witness :
    MarketPrices.gold (Game.marketPrices (updateMarketPrices gBase "A"
        (some { gold_price := some 0, water_price := none, oil_price := some 7 })))
      = gBase.marketPrices.gold ∧
    MarketPrices.oil (Game.marketPrices (updateMarketPrices gBase "A"
        (some { gold_price := some 0, water_price := none, oil_price := some 7 })))
      = 7 :=
  let h := updateMarketPrices_correct gBase "A"
    { gold_price := some 0, water_price := none, oil_price := some 7 }
    (by decide) (by decide)
  ⟨h.1 (Or.inr rfl), h.2.2.2.2.2.1 7 rfl (by decide)⟩

/-- C7: a successful Buy of `amount` units followed by a successful Sell of
the same resource and amount at the same (≥ 1) market price leaves the
acting player's tokens at most the pre-Buy balance — and, the Sell crediting
`floor(price × amount × 0.8) ≤ price × amount`, strictly below it whenever
the proceeds are not an exact multiple (in fact always, which implies the
claimed conditional strictness). -/
theorem buySell_roundTrip_correct (g : Game) (actorId : String) (res : Resource)
    (amount : Nat) (player : Player)
    (hstatus : g.status = GameStatus.playing)
    (hfind : g.players.find? (idIs actorId) = some player)
    (hp : 1 ≤ g.marketPrices.get res) (ha : 1 ≤ amount)
    (hbuy : ((g.marketPrices.get res * amount : Nat) : Int) ≤ player.tokens) :
    ∃ p2,
      (applyPlayerAction (applyPlayerAction g actorId PlayerAction.Buy res amount none)
          actorId PlayerAction.Sell res amount none).players.find? (idIs actorId)
        = some p2
      ∧ p2.tokens ≤ player.tokens
      ∧ (¬ (5 ∣ g.marketPrices.get res * amount) → p2.tokens < player.tokens) := by
  obtain ⟨hf1, hst1, hmp1⟩ :=
    applyPlayerAction_buy_actor g actorId res amount player hstatus hfind hbuy
  have hst1' : (applyPlayerAction g actorId PlayerAction.Buy res amount none).status
      = GameStatus.playing := hst1.trans hstatus
  have hsell : amount ≤ Assets.get (Player.assets (recomputeTotal
      (buyUpdate ((g.marketPrices.get res * amount : Nat) : Int) res amount player)))
      res := by
    show amount ≤ (player.assets.set res (player.assets.get res + amount)).get res
    rw [get_set_self]
    omega
  obtain ⟨hf2, _, _⟩ := applyPlayerAction_sell_actor
    (applyPlayerAction g actorId PlayerAction.Buy res amount none) actorId res amount
    (recomputeTotal
      (buyUpdate ((g.marketPrices.get res * amount : Nat) : Int) res amount player))
    hst1' hf1 hsell
  rw [hmp1] at hf2
  refine ⟨_, hf2, ?_, ?_⟩ <;>
  · have hn : 1 ≤ g.marketPrices.get res * amount := Nat.mul_le_mul hp ha
    have hdiv : (4 * (g.marketPrices.get res * amount)) / 5
        < g.marketPrices.get res * amount := by
      rw [Nat.div_lt_iff_lt_mul (by norm_num)]
      omega
    have htok : (recomputeTotal (sellUpdate
        (((4 * (g.marketPrices.get res * amount)) / 5 : Nat) : Int) res amount
        (recomputeTotal (buyUpdate ((g.marketPrices.get res * amount : Nat) : Int)
          res amount player)))).tokens
        = player.tokens - ((g.marketPrices.get res * amount : Nat) : Int)
          + (((4 * (g.marketPrices.get res * amount)) / 5 : Nat) : Int) := rfl
    rw [htok]
    first
      | (intro _; omega)
      | omega

/-- Witness for C7: on `gBase`, buying and then selling 1 gold at price 100
loses tokens (1000 → 980). -/
theorem buySell_roundTrip_witness :
    ∃ p2,
      List.find? (idIs "A") (Game.players
          (applyPlayerAction (applyPlayerAction gBase "A" PlayerAction.Buy
            Resource.gold 1 none) "A" PlayerAction.Sell Resource.gold 1 none))
        = some p2
      ∧ Player.tokens p2 ≤ (samplePlayer "A" "Alice").tokens
      ∧ (¬ (5 ∣ gBase.marketPrices.get Resource.gold * 1) →
          Player.tokens p2 < (samplePlayer "A" "Alice").tokens) :=
  buySell_roundTrip_correct gBase "A" Resource.gold 1 (samplePlayer "A" "Alice")
    (by decide) (by decide) (by decide) (by decide) (by decide)

/-- C1 counterexample: in `gBase` (both players hold no assets), a Sabotage
by "A" (1000 tokens ≥ 100) against "B" with `assets.gold = 0 < 1` appends no
action text but does NOT leave the state unchanged: the acting player is
still charged 100 tokens. -/
theorem sabotage_chargesTokens_counterexample :
    applyPlayerAction gBase "A" PlayerAction.Sabotage Resource.gold 1 (some "B")
      ≠ gBase
    ∧ Game.recentActions (applyPlayerAction gBase "A" PlayerAction.Sabotage
        Resource.gold 1 (some "B")) = gBase.recentActions
    ∧ (List.find? (idIs "A") (Game.players (applyPlayerAction gBase "A"
        PlayerAction.Sabotage Resource.gold 1 (some "B")))).map Player.tokens
        = some 900 := by
  decide

/-- C1 (amended): an action whose precondition is unmet appends nothing to
`recentActions` and leaves the session unchanged — EXCEPT that a Sabotage
attempt by a player with ≥ 100 tokens and a supplied target id still charges
the actor 100 tokens even when the target is missing or lacks the resource. -/
theorem playerAction_unmetPrecondition_amended (g : Game) (actorId : String)
    (action : PlayerAction) (res : Resource) (amount : Nat)
    (targetPlayer : Option String) (player : Player)
    (hstatus : g.status = GameStatus.playing)
    (hfind : g.players.find? (idIs actorId) = some player)
    (htot : player.totalAssets = sumAssets player.assets)
    (hunmet : actionPrecondUnmet g player action res amount targetPlayer = true) :
    (applyPlayerAction g actorId action res amount targetPlayer).recentActions
        = g.recentActions
    ∧ (applyPlayerAction g actorId action res amount targetPlayer)
        = (if sabotageCharged player action targetPlayer = true
           then { g with
              players := updateFirst (idIs actorId) chargeSabotage g.players }
           else g) := by
  have hne : ¬(g.status ≠ GameStatus.playing) := by simp [hstatus]
  have hreco : recomputeTotal player = player := setTotal_self player htot
  have hupd : updateFirst (idIs actorId) recomputeTotal g.players = g.players :=
    updateFirst_eq_self _ _ g.players player hfind hreco
  cases action with
  | Buy =>
      have hlt : player.tokens < ((g.marketPrices.get res * amount : Nat) : Int) := by
        simpa [actionPrecondUnmet] using hunmet
      have hnb : ¬(((g.marketPrices.get res * amount : Nat) : Int) ≤ player.tokens) :=
        not_le.2 hlt
      have hch : sabotageCharged player PlayerAction.Buy targetPlayer = false := by
        simp [sabotageCharged]
      simp only [applyPlayerAction, hne, if_false, hfind, resolveAction, hnb,
        hch, Bool.false_eq_true, if_false, hupd, ne_eq, not_true_eq_false]
      constructor <;> trivial
  | Sell =>
      have hlt : player.assets.get res < amount := by
        simpa [actionPrecondUnmet] using hunmet
      have hnb : ¬(amount ≤ player.assets.get res) := not_le.2 hlt
      have hch : sabotageCharged player PlayerAction.Sell targetPlayer = false := by
        simp [sabotageCharged]
      simp only [applyPlayerAction, hne, if_false, hfind, resolveAction, hnb,
        hch, Bool.false_eq_true, if_false, hupd, ne_eq, not_true_eq_false]
      constructor <;> trivial
  | Burn =>
      have hlt : player.assets.get res < amount := by
        simpa [actionPrecondUnmet] using hunmet
      have hnb : ¬(amount ≤ player.assets.get res) := not_le.2 hlt
      have hch : sabotageCharged player PlayerAction.Burn targetPlayer = false := by
        simp [sabotageCharged]
      simp only [applyPlayerAction, hne, if_false, hfind, resolveAction, hnb,
        hch, Bool.false_eq_true, if_false, hupd, ne_eq, not_true_eq_false]
      constructor <;> trivial
  | Sabotage =>
      cases targetPlayer with
      | none =>
          have hch : sabotageCharged player PlayerAction.Sabotage none = false := by
            simp [sabotageCharged]
          simp only [applyPlayerAction, hne, if_false, hfind, resolveAction,
            hch, Bool.false_eq_true, if_false, hupd, ne_eq, not_true_eq_false]
          constructor <;> trivial
      | some tid =>
          by_cases hb : (100 : Int) ≤ player.tokens
          · have hch : sabotageCharged player PlayerAction.Sabotage (some tid)
                = true := by
              simp [sabotageCharged, hb]
            have hd100 : decide (player.tokens < 100) = false := by
              simp [not_lt.2 hb]
            have hmatch : (match g.players.find? (idIs tid) with
                | none => true
                | some t => decide (t.assets.get res < amount)) = true := by
              have := hunmet
              simp only [actionPrecondUnmet, hd100, Bool.false_or] at this
              exact this
            have hassets := find?_updateFirst_assets (idIs actorId) (idIs tid)
              chargeSabotage g.players (fun x => rfl) (fun x => rfl)
            have hfch : (updateFirst (idIs actorId) chargeSabotage g.players).find?
                (idIs actorId) = some (chargeSabotage player) := by
              rw [find?_updateFirst (idIs actorId) chargeSabotage g.players
                (fun x => rfl), hfind]
              rfl
            have hupd1 : updateFirst (idIs actorId) recomputeTotal
                (updateFirst (idIs actorId) chargeSabotage g.players)
                = updateFirst (idIs actorId) chargeSabotage g.players :=
              updateFirst_eq_self _ _ _ (chargeSabotage player) hfch
                (setTotal_self _ htot)
            cases hft : g.players.find? (idIs tid) with
            | none =>
                have hps1 : (updateFirst (idIs actorId) chargeSabotage
                    g.players).find? (idIs tid) = none := by
                  rw [hft] at hassets
                  simpa using hassets
                simp only [applyPlayerAction, hne, if_false, hfind, resolveAction,
                  hb, if_true, hps1, hch, hupd1, ne_eq, not_true_eq_false]
                constructor <;> trivial
            | some t =>
                have hlt : t.assets.get res < amount := by
                  rw [hft] at hmatch
                  simpa using hmatch
                obtain ⟨t', hft1, hta⟩ : ∃ t',
                    (updateFirst (idIs actorId) chargeSabotage g.players).find?
                      (idIs tid) = some t' ∧ t'.assets = t.assets := by
                  rw [hft] at hassets
                  cases hft1 : (updateFirst (idIs actorId) chargeSabotage
                      g.players).find? (idIs tid) with
                  | none => rw [hft1] at hassets; simp at hassets
                  | some u =>
                      rw [hft1] at hassets
                      exact ⟨u, rfl, by simpa using hassets⟩
                have hnta : ¬(amount ≤ t'.assets.get res) := by
                  have : t'.assets.get res = t.assets.get res := by rw [hta]
                  omega
                simp only [applyPlayerAction, hne, if_false, hfind, resolveAction,
                  hb, if_true, hft1, hnta, Bool.false_eq_true, if_false, hch,
                  hupd1, ne_eq, not_true_eq_false]
                constructor <;> trivial
          · have hch : sabotageCharged player PlayerAction.Sabotage (some tid)
                = false := by
              simp [sabotageCharged, hb]
            simp only [applyPlayerAction, hne, if_false, hfind, resolveAction,
              hb, Bool.false_eq_true, if_false, hch, hupd, ne_eq,
              not_true_eq_false]
            constructor <;> trivial

/-- Witness for C1 (amended) at `gBase`: "A" tries to sabotage "B" who has
no gold; the result is exactly `gBase` with "A" charged 100 tokens. -/
theorem playerAction_unmetPrecondition_witness :
    Game.recentActions (applyPlayerAction gBase "A" PlayerAction.Sabotage
        Resource.gold 1 (some "B")) = gBase.recentActions
    ∧ (applyPlayerAction gBase "A" PlayerAction.Sabotage Resource.gold 1 (some "B"))
        = (if sabotageCharged (samplePlayer "A" "Alice") PlayerAction.Sabotage
              (some "B") = true
           then { gBase with
              players := updateFirst (idIs "A") chargeSabotage gBase.players }
           else gBase) :=
  playerAction_unmetPrecondition_amended gBase "A" PlayerAction.Sabotage
    Resource.gold 1 (some "B") (samplePlayer "A" "Alice")
    (by decide) (by decide) (by decide) (by decide)

set_option maxRecDepth 10000 in
/-- C2 counterexample: `gBase` is a playing session with the round timer at
60 seconds, yet after exactly 60 ticks it has NOT entered RoundDelay — the
transition only fires on the 61st tick. -/
theorem roundTimer_sixtyTicks_counterexample :
    gBase.timeRemaining = { hours := 0, minutes := 1, seconds := 0 }
    ∧ gBase.status = GameStatus.playing
    ∧ gBase.timerActive = true
    ∧ gBase.roundDelay = none
    ∧ (ticks (fun _ _ => 0) 60 gBase).roundDelay = none := by
  decide

/-- C2 (amended): from `timeRemaining = 60 s`, after 60 ticks the session is
still counting (no RoundDelay); the RoundDelay state is entered on the 61st
tick; and 10 ticks later (71 in total) the session is in round `current + 1`
with `timeRemaining` reset to 60 s and `recentActions` empty. -/
theorem roundTimer_ticks_amended (g : Game) (rss : Nat → Nat → Rat)
    (hA : g.timerActive = true) (hD : g.roundDelay = none)
    (hT : g.timeRemaining = ⟨0, 1, 0⟩)
    (hmax : g.currentRound + 1 ≤ g.maxRounds) :
    (ticks rss 60 g).roundDelay = none
    ∧ (ticks rss 61 g).roundDelay = some { active := true, timeRemaining := 10 }
    ∧ (ticks rss 71 g).currentRound = g.currentRound + 1
    ∧ (ticks rss 71 g).timeRemaining = ⟨0, 1, 0⟩
    ∧ (ticks rss 71 g).recentActions = []
    ∧ (ticks rss 71 g).roundDelay = none := by
  have h1 : ticks rss 1 g = { g with timeRemaining := ⟨0, 0, 59⟩ } := by
    show tick (rss 0) (ticks rss 0 g) = _
    exact tick_minute (rss 0) g hA hD hT
  have h60 : ticks rss 60 g = { g with timeRemaining := ⟨0, 0, 0⟩ } := by
    rw [show (60 : Nat) = 1 + 59 from rfl, ticks_add rss 1 59 g, h1]
    rw [ticks_countdown (fun i => rss (1 + i)) _ 59 (by simp [hA]) (by simp [hD])
      (by simp)]
  have h61 : ticks rss 61 g
      = { g with
            timeRemaining := ⟨0, 0, 0⟩
            roundDelay := some { active := true, timeRemaining := 10 } } := by
    rw [show (61 : Nat) = 60 + 1 from rfl]
    show tick (rss 60) (ticks rss 60 g) = _
    rw [h60]
    exact tick_to_delay (rss 60) _ (by simp [hA]) (by simp [hD]) rfl
  have h70 : ticks rss 70 g
      = { g with
            timeRemaining := ⟨0, 0, 0⟩
            roundDelay := some { active := true, timeRemaining := 1 } } := by
    rw [show (70 : Nat) = 61 + 9 from rfl, ticks_add rss 61 9 g, h61]
    rw [ticks_delay (fun i => rss (61 + i)) _ 9 (by simp [hA]) (by norm_num) 9
      (le_refl 9)]
    norm_num
  have h71 : ticks rss 71 g
      = { g with
            roundDelay := none
            actionHistory :=
              if 0 < g.recentActions.length then
                (g.currentRound, g.recentActions) :: g.actionHistory
              else g.actionHistory
            currentRound := g.currentRound + 1
            recentActions := []
            timeRemaining := ⟨0, 1, 0⟩
            marketChanges := rerandomize (rss 70) 0 g.marketChanges } := by
    rw [show (71 : Nat) = 70 + 1 from rfl]
    show tick (rss 70) (ticks rss 70 g) = _
    rw [h70]
    exact tick_delay_end (rss 70) _ 1 (by simp [hA]) rfl (by norm_num)
      (by simpa using hmax)
  exact ⟨by rw [h60]; exact hD, by rw [h61], by rw [h71], by rw [h71],
    by rw [h71], by rw [h71]⟩

/-- Witness for C2 (amended) at the concrete session `gBase`. -/
theorem roundTimer_ticks_witness :
    (ticks (fun _ _ => 0) 60 gBase).roundDelay = none
    ∧ (ticks (fun _ _ => 0) 61 gBase).roundDelay
        = some { active := true, timeRemaining := 10 }
    ∧ (ticks (fun _ _ => 0) 71 gBase).currentRound = gBase.currentRound + 1
    ∧ (ticks (fun _ _ => 0) 71 gBase).timeRemaining = ⟨0, 1, 0⟩
    ∧ (ticks (fun _ _ => 0) 71 gBase).recentActions = []
    ∧ (ticks (fun _ _ => 0) 71 gBase).roundDelay = none :=
  roundTimer_ticks_amended gBase (fun _ _ => 0) (by decide) (by decide)
    (by decide) (by decide)

/-- C3 counterexample: in `gBase` the host "A" exits while "B" (connected,
not exited) remains; the session continues, yet `host` still names "A", who
is no longer a member of `players` — the invariant in the claim fails. -/
theorem exitGame_host_counterexample :
    exitGame gBase "A" = ExitOutcome.continuing gBaseAfterHostExit
    ∧ gBaseAfterHostExit.host = some "A"
    ∧ gBaseAfterHostExit.players.all (fun p => p.id != "A") = true
    ∧ gBaseAfterHostExit.players.any
        (fun p => !(gBaseAfterHostExit.exitedPlayers.contains p.id)) = true := by
  decide

/-- C3 (amended): `exit-game` never reassigns `host`.  When the host exits
and the session continues, `host` still holds the exited player's id, and
that id no longer occurs in `players`; host reassignment happens only in the
disconnect handler. -/
theorem exitGame_host_amended (g : Game) (hid : String) (g' : Game)
    (hhost : g.host = some hid)
    (hcont : exitGame g hid = ExitOutcome.continuing g') :
    g'.host = some hid ∧ ∀ p ∈ g'.players, p.id ≠ hid := by
  simp only [exitGame] at hcont
  split at hcont
  · exact ExitOutcome.noConfusion hcont
  · injection hcont with h
    subst h
    refine ⟨hhost, ?_⟩
    intro p hp
    have hp' : p ∈ g.players.filter (fun p => p.id != hid) := hp
    simp only [List.mem_filter] at hp'
    simpa using hp'.2

/-- Witness for C3 (amended) at the concrete exit of host "A" from `gBase`. -/
theorem exitGame_host_witness :
    gBaseAfterHostExit.host = some "A"
    ∧ ∀ p ∈ gBaseAfterHostExit.players, p.id ≠ "A" :=
  exitGame_host_amended gBase "A" gBaseAfterHostExit (by decide) (by decide)

/-- C5 counterexample: after create("A"), join("Bob"), exit("A") the session
continues with one in-memory player while the persisted `current_players` is
still 2 — the exit path never updates the store. -/
theorem persistence_currentPlayers_counterexample :
    (c5after.map (fun s => (s.db.current_players, s.mem.players.length)))
      = some (2, 1)
    ∧ (2 : Nat) ≠ 1 := by
  decide

/-- C5 (amended): the persisted `current_players` equals the length of the
PERSISTED player snapshot after create and join, and `totalAssets` equals
the asset sum after every mutation (player actions and joins); but a player
exit removes the player from the in-memory session only, so the persisted
count can differ from the live `players.length` (see the counterexample). -/
theorem persistence_invariants_amended :
    (∀ ps : List Player,
        (dbCreateGame ps).current_players = (dbCreateGame ps).players.length)
    ∧ (∀ (db : DbRecord) (p : Player),
        (dbAddPlayerToGame db p).current_players
          = (dbAddPlayerToGame db p).players.length)
    ∧ (∀ (g : Game) (actorId : String) (action : PlayerAction) (res : Resource)
        (amount : Nat) (targetPlayer : Option String), totalsOk g.players →
        totalsOk (applyPlayerAction g actorId action res amount targetPlayer).players)
    ∧ (∀ (g : Game) (pn : String) (w : Option String) (gid : String),
        totalsOk g.players → totalsOk (joinGame g pn w gid).1.players) := by
  refine ⟨fun ps => rfl, fun db p => rfl,
    fun g a ac r am t h => applyPlayerAction_totalsOk g a ac r am t h, ?_⟩
  intro g pn w gid h
  unfold joinGame
  by_cases h4 : 4 ≤ g.players.length
  · rw [if_pos h4]; exact h
  · rw [if_neg h4]
    by_cases hw : g.status ≠ GameStatus.waiting
    · rw [if_pos hw]; exact h
    · rw [if_neg hw]
      intro p hp
      rcases List.mem_append.1 hp with hp | hp
      · exact h p hp
      · rcases List.mem_singleton.1 hp with rfl
        rfl

/-- Witness for C5 (amended): the `totalAssets` invariant survives a
concrete Buy on `gBase`. -/
theorem persistence_invariants_witness :
    totalsOk gBase.players
    ∧ totalsOk (applyPlayerAction gBase "A" PlayerAction.Buy
        Resource.gold 2 none).players :=
  ⟨by decide, persistence_invariants_amended.2.2.1 gBase "A" PlayerAction.Buy
    Resource.gold 2 none (by decide)⟩

/-- Each entry produced by `rerandomize` carries `randomChange` of one of
the supplied draws. -/
theorem mem_rerandomize (rs : Nat → Rat) :
    ∀ (l : List MarketChange) (i : Nat) (c : MarketChange),
      c ∈ rerandomize rs i l → ∃ j, c.change = randomChange (rs j) := by
  intro l
  induction l with
  | nil => intro i c hc; simp [rerandomize] at hc
  | cons x xs ih =>
      intro i c hc
      rcases List.mem_cons.1 hc with hc | hc
      · exact ⟨i, by rw [hc]⟩
      · exact ih (i + 1) c hc

/-- Range of a single re-randomised market change:
`⌊r·40⌋ - 20 ∈ [-20, 19]` for `r ∈ [0, 1)`. -/
theorem randomChange_bounds (r : Rat) (h0 : 0 ≤ r) (h1 : r < 1) :
    -20 ≤ randomChange r ∧ randomChange r ≤ 19 := by
  unfold randomChange
  constructor
  · have : (0 : Int) ≤ ⌊r * 40⌋ := Int.floor_nonneg.2 (by positivity)
    omega
  · have : ⌊r * 40⌋ < 40 := by
      apply Int.floor_lt.2
      push_cast
      nlinarith
    omega

/-- C9 counterexample: no `Math.random()` draw `r ∈ [0, 1)` can make
`Math.floor(r * 40) - 20` equal to +20, so +20 is not a possible outcome of
the re-randomisation, contrary to the claim. -/
theorem marketRandomization_counterexample :
    ¬ ∃ r : Rat, 0 ≤ r ∧ r < 1 ∧ randomChange r = 20 := by
  rintro ⟨r, h0, h1, he⟩
  unfold randomChange at he
  have hf : ⌊r * 40⌋ = 40 := by omega
  have hle : ((40 : Int) : Rat) ≤ r * 40 := by
    have h := Int.floor_le (r * 40)
    rw [hf] at h
    exact h
  have : (1 : Rat) ≤ r := by
    push_cast at hle
    nlinarith
  linarith

/-- C9 (amended): at a RoundDelay-to-Counting transition every market change
indicator is re-randomised to `⌊r·40⌋ - 20` with `r = Math.random()`, so
every outcome lies in the integer range [-20, +19], and every integer in
[-20, +19] (not +20) is a possible outcome. -/
theorem marketRandomization_amended :
    (∀ (g : Game) (rs : Nat → Rat) (d : Int),
        g.timerActive = true →
        g.roundDelay = some { active := true, timeRemaining := d } →
        d ≤ 1 →
        g.currentRound + 1 ≤ g.maxRounds →
        (∀ i, 0 ≤ rs i ∧ rs i < 1) →
        ∀ c ∈ (tick rs g).marketChanges, -20 ≤ c.change ∧ c.change ≤ 19)
    ∧ (∀ z : Int, -20 ≤ z → z ≤ 19 →
        ∃ r : Rat, 0 ≤ r ∧ r < 1 ∧ randomChange r = z) := by
  constructor
  · intro g rs d hA hD hd hmax hrs c hc
    rw [tick_delay_end rs g d hA hD hd hmax] at hc
    have hc' : c ∈ rerandomize rs 0 g.marketChanges := hc
    obtain ⟨j, hj⟩ := mem_rerandomize rs g.marketChanges 0 c hc'
    rw [hj]
    exact randomChange_bounds (rs j) (hrs j).1 (hrs j).2
  · intro z hz1 hz2
    refine ⟨((z + 20 : Int) : Rat) / 40, ?_, ?_, ?_⟩
    · apply div_nonneg _ (by norm_num)
      exact_mod_cast (by omega : (0 : Int) ≤ z + 20)
    · rw [div_lt_one (by norm_num)]
      exact_mod_cast (by omega : (z + 20 : Int) < 40)
    · unfold randomChange
      rw [div_mul_cancel₀ _ (by norm_num : (40 : Rat) ≠ 0)]
      rw [Int.floor_intCast]
      omega

/-- Witness for C9 (amended): the transition tick on `gDelay` with draws all
equal to 1/2, and the attainability of outcome 0. -/
theorem marketRandomization_witness :
    (∀ c ∈ (tick (fun _ => (1 : Rat) / 2) gDelay).marketChanges,
        -20 ≤ c.change ∧ c.change ≤ 19)
    ∧ (∃ r : Rat, 0 ≤ r ∧ r < 1 ∧ randomChange r = 0) :=
  ⟨marketRandomization_amended.1 gDelay (fun _ => (1 : Rat) / 2) 1
      (by decide) (by decide) (by decide) (by decide)
      (fun i => by constructor <;> norm_num),
    marketRandomization_amended.2 0 (by decide) (by decide)⟩

end PlayerZero
